import Mathlib

deriving instance DecidableEq for Except

/-!
Verification development for the `pm-cli` project/time tracker.

The Go source is embedded shallowly:

* `time.Time` and `time.Duration` are modelled as `Int` (nanoseconds since
  an arbitrary epoch); `nil`-able timestamps become `Option Int`.
* UUID generation (`uuid.New`) and the wall clock (`time.Now`) are
  impure inputs of the original code and are passed in as explicit
  parameters (`newId`, `now`).
* The SQLite store is modelled as in-memory lists of rows; each SQL
  statement of the repository layer is translated clause by clause.
* Go errors are an inductive type; `fmt.Errorf("...: %w", err)` wrapping
  is modelled by the `wrapped` constructor, and `errors.Is`-style
  unwrapping by `GoErr.errorsIs`.
* `map[string]interface{}` metadata fields carry no behavior relevant to
  any verified property and are omitted from the structures.
-/

namespace PM

/-- Model of Go `strings.TrimSpace` (standard library collaborator):
drops whitespace from both ends of a string. -/
def trimSpace (s : String) : String :=
  ⟨((s.data.dropWhile Char.isWhitespace).reverse.dropWhile Char.isWhitespace).reverse⟩

/-- Model of Go `strings.Split(s, ",")` (standard library collaborator). -/
def splitOnComma (s : String) : List String :=
  (s.data.splitOn ',').map String.mk

/-! ## Domain model (`internal/domain`) -/

/-- `domain.TaskStatus` (task.go). -/
inductive TaskStatus where
  | backlog
  | todo
  | doing
  | done
  | blocked
deriving DecidableEq, Repr

/-- `domain.Priority` (task.go). -/
inductive Priority where
  | low
  | normal
  | high
  | critical
deriving DecidableEq, Repr

/-- `domain.Task` (task.go).  The `Metadata` map is omitted (see header). -/
structure Task where
  id : String
  title : String
  description : String
  status : TaskStatus
  priority : Priority
  projectId : String
  parentId : Option String
  tags : List String
  changelist : String
  dueDate : Option Int
  createdAt : Int
  updatedAt : Int
  completedAt : Option Int
deriving DecidableEq, Repr

/-- `domain.NewTask` (task.go): fresh id and clock are explicit inputs. -/
def NewTask (title description : String) (id : String) (now : Int) : Task :=
  { id := id
    title := title
    description := description
    status := .todo
    priority := .normal
    projectId := ""
    parentId := none
    tags := []
    changelist := ""
    dueDate := none
    createdAt := now
    updatedAt := now
    completedAt := none }

/-- `Task.Complete` (task.go). -/
def Task.complete (t : Task) (now : Int) : Task :=
  { t with status := .done, completedAt := some now, updatedAt := now }

/-- `Task.Start` (task.go). -/
def Task.start (t : Task) (now : Int) : Task :=
  { t with status := .doing, updatedAt := now }

/-- `Task.Block` (task.go). -/
def Task.block (t : Task) (now : Int) : Task :=
  { t with status := .blocked, updatedAt := now }

/-- `Task.AddTag` (task.go): append unless already present. -/
def Task.addTag (t : Task) (tag : String) (now : Int) : Task :=
  if t.tags.contains tag then t
  else { t with tags := t.tags ++ [tag], updatedAt := now }

/-- `domain.ProjectStatus` (project domain file). -/
inductive ProjectStatus where
  | active
  | archived
  | completed
  | onHold
deriving DecidableEq, Repr

/-- `domain.Project`.  The `Metadata` map is omitted (see header). -/
structure Project where
  id : String
  name : String
  description : String
  status : ProjectStatus
  color : String
  createdAt : Int
  updatedAt : Int
  archivedAt : Option Int
deriving DecidableEq, Repr

/-- `domain.NewProject`. -/
def NewProject (name description : String) (id : String) (now : Int) : Project :=
  { id := id
    name := name
    description := description
    status := .active
    color := "#3498db"
    createdAt := now
    updatedAt := now
    archivedAt := none }

/-- `Project.Archive`. -/
def Project.archive (p : Project) (now : Int) : Project :=
  { p with status := .archived, archivedAt := some now, updatedAt := now }

/-- `Project.Complete`.  Note: it does not touch `archivedAt`. -/
def Project.complete (p : Project) (now : Int) : Project :=
  { p with status := .completed, updatedAt := now }

/-- `Project.Activate`. -/
def Project.activate (p : Project) (now : Int) : Project :=
  { p with status := .active, archivedAt := none, updatedAt := now }

/-- `Project.PutOnHold`.  Note: it does not touch `archivedAt`. -/
def Project.putOnHold (p : Project) (now : Int) : Project :=
  { p with status := .onHold, updatedAt := now }

/-- `domain.TimeEntry` (time_entry.go).  `Metadata` omitted (see header). -/
structure TimeEntry where
  id : String
  taskId : String
  projectId : String
  description : String
  startTime : Int
  endTime : Option Int
  duration : Int
  createdAt : Int
  updatedAt : Int
deriving DecidableEq, Repr

/-- `domain.NewTimeEntry`: `Duration` starts at its Go zero value `0`,
`EndTime` at `nil`. -/
def NewTimeEntry (taskId projectId description : String) (id : String) (now : Int) : TimeEntry :=
  { id := id
    taskId := taskId
    projectId := projectId
    description := description
    startTime := now
    endTime := none
    duration := 0
    createdAt := now
    updatedAt := now }

/-- `TimeEntry.Stop`: a single `now` sample is used for the end timestamp,
the duration and the update timestamp. -/
def TimeEntry.stop (te : TimeEntry) (now : Int) : TimeEntry :=
  { te with endTime := some now, duration := now - te.startTime, updatedAt := now }

/-- `TimeEntry.IsActive`. -/
def TimeEntry.isActive (te : TimeEntry) : Bool :=
  te.endTime.isNone

/-- `TimeEntry.GetDuration`: the persisted duration once stopped,
`time.Since(StartTime)` (i.e. `now - startTime`) while running. -/
def TimeEntry.getDuration (te : TimeEntry) (now : Int) : Int :=
  match te.endTime with
  | some _ => te.duration
  | none => now - te.startTime

/-- Go error values of `internal/domain/errors.go` that the verified code
paths can produce, plus `wrapped` for `fmt.Errorf("...: %w", err)`. -/
inductive GoErr where
  | errTaskNotFound
  | errProjectNotFound
  | errTimeEntryNotFound
  | errEmptyTitle
  | errEmptyName
  | errDuplicateProject
  | errActiveTimeEntry
  | errNoActiveTimeEntry
  | errInvalidTaskID
  | errInvalidProjectID
  | errInvalidDueDate
  | wrapped (msg : String) (inner : GoErr)
deriving DecidableEq, Repr

/-- Model of Go `errors.Is`: unwrap the `%w` chain. -/
def GoErr.errorsIs : GoErr → GoErr → Bool
  | .wrapped _ inner, target => inner.errorsIs target
  | e, target => e = target

/-! ## Repository layer (`internal/repository/sqlite`)

Tables are lists of rows; `INSERT` appends, `UPDATE ... WHERE id = ?`
rewrites every row with a matching id and reports
`ErrTimeEntryNotFound` / `ErrTaskNotFound` when `RowsAffected == 0`,
mirroring the Go code. -/

/-- `domain.TimeEntryFilter`, as consumed by `TimeEntryRepository.List`. -/
structure TimeEntryFilter where
  taskId : String := ""
  projectId : String := ""
  startAfter : Option Int := none
  endBefore : Option Int := none
  active : Option Bool := none
  limit : Nat := 0
  offset : Nat := 0
deriving Repr

/-- The `WHERE` clause built by `TimeEntryRepository.List`, clause by
clause.  Note that the `EndBefore` clause constrains `end_time`
(`end_time IS NULL OR end_time <= ?`), not `start_time`. -/
def entryMatches (f : TimeEntryFilter) (te : TimeEntry) : Bool :=
  (f.taskId = "" || te.taskId = f.taskId) &&
  (f.projectId = "" || te.projectId = f.projectId) &&
  (match f.startAfter with
   | none => true
   | some s => s ≤ te.startTime) &&
  (match f.endBefore with
   | none => true
   | some e =>
     match te.endTime with
     | none => true
     | some t => t ≤ e) &&
  (match f.active with
   | none => true
   | some b => if b then te.endTime.isNone else !te.endTime.isNone)

/-- Insertion step of a stable sort on `start_time` descending. -/
def insertByStartDesc (te : TimeEntry) : List TimeEntry → List TimeEntry
  | [] => [te]
  | b :: rest =>
    if b.startTime ≥ te.startTime then b :: insertByStartDesc te rest
    else te :: b :: rest

/-- Model of `ORDER BY start_time DESC` (ties are in an unspecified order
in SQLite; this model keeps them stable). -/
def sortByStartDesc : List TimeEntry → List TimeEntry
  | [] => []
  | te :: rest => insertByStartDesc te (sortByStartDesc rest)

namespace TimeEntryRepository

/-- `TimeEntryRepository.Create`: `INSERT` appends a row. -/
def create (entries : List TimeEntry) (e : TimeEntry) : List TimeEntry :=
  entries ++ [e]

/-- `TimeEntryRepository.List`: `WHERE` filter, `ORDER BY start_time
DESC`, then `OFFSET`/`LIMIT` (each emitted only when positive). -/
def list (entries : List TimeEntry) (f : TimeEntryFilter) : List TimeEntry :=
  let sorted := sortByStartDesc (entries.filter (entryMatches f))
  let afterOffset := if f.offset > 0 then sorted.drop f.offset else sorted
  if f.limit > 0 then afterOffset.take f.limit else afterOffset

/-- `TimeEntryRepository.Update`: rewrite rows `WHERE id = ?`;
`ErrTimeEntryNotFound` when no row was affected. -/
def update (entries : List TimeEntry) (e : TimeEntry) : Except GoErr (List TimeEntry) :=
  if entries.any (fun x => x.id = e.id) then
    .ok (entries.map fun x => if x.id = e.id then e else x)
  else
    .error .errTimeEntryNotFound

/-- `TimeEntryRepository.GetActive`:
`WHERE end_time IS NULL ORDER BY start_time DESC LIMIT 1`,
`ErrNoActiveTimeEntry` on `sql.ErrNoRows`. -/
def getActive (entries : List TimeEntry) : Except GoErr TimeEntry :=
  match sortByStartDesc (entries.filter TimeEntry.isActive) with
  | [] => .error .errNoActiveTimeEntry
  | e :: _ => .ok e

end TimeEntryRepository

namespace TaskRepository

/-- `TaskRepository.Create`. -/
def create (tasks : List Task) (t : Task) : List Task :=
  tasks ++ [t]

/-- `TaskRepository.GetByID`: `ErrTaskNotFound` on `sql.ErrNoRows`. -/
def getByID (tasks : List Task) (id : String) : Except GoErr Task :=
  match tasks.find? (fun t => t.id = id) with
  | some t => .ok t
  | none => .error .errTaskNotFound

/-- `TaskRepository.Update`: rewrite rows `WHERE id = ?` (all columns,
`completed_at` included, are written verbatim from the passed struct);
`ErrTaskNotFound` when no row was affected. -/
def update (tasks : List Task) (t : Task) : Except GoErr (List Task) :=
  if tasks.any (fun x => x.id = t.id) then
    .ok (tasks.map fun x => if x.id = t.id then t else x)
  else
    .error .errTaskNotFound

end TaskRepository

namespace ProjectRepository

/-- `ProjectRepository.Create`. -/
def create (projects : List Project) (p : Project) : List Project :=
  projects ++ [p]

/-- `ProjectRepository.GetByID`. -/
def getByID (projects : List Project) (id : String) : Except GoErr Project :=
  match projects.find? (fun p => p.id = id) with
  | some p => .ok p
  | none => .error .errProjectNotFound

/-- `ProjectRepository.GetByName`. -/
def getByName (projects : List Project) (name : String) : Except GoErr Project :=
  match projects.find? (fun p => p.name = name) with
  | some p => .ok p
  | none => .error .errProjectNotFound

/-- `ProjectRepository.Update`. -/
def update (projects : List Project) (p : Project) : Except GoErr (List Project) :=
  if projects.any (fun x => x.id = p.id) then
    .ok (projects.map fun x => if x.id = p.id then p else x)
  else
    .error .errProjectNotFound

end ProjectRepository

/-- The persistent store: the three related tables. -/
structure Store where
  tasks : List Task
  projects : List Project
  entries : List TimeEntry
deriving Repr

/-! ## Time tracking service (`internal/service/time`)

Go package `time`; every operation returns its result together with the
store it leaves behind, so that error paths visibly leave the store
unchanged. -/

namespace TimeService

/-- `time.StartTimeEntryInput`. -/
structure StartTimeEntryInput where
  taskId : String
  description : String
deriving Repr

/-- `time.ListOptions` (same fields as `domain.TimeEntryFilter`). -/
structure ListOptions where
  taskId : String := ""
  projectId : String := ""
  startAfter : Option Int := none
  endBefore : Option Int := none
  active : Option Bool := none
  limit : Nat := 0
  offset : Nat := 0
deriving Repr

/-- `Service.StartTimeTracking`.  `taskUpdateFails` injects a
storage-layer failure of the best-effort `taskRepo.Update` call, which
the Go code only logs ("Warning: failed to update task status") and
never propagates. -/
def StartTimeTracking (st : Store) (input : StartTimeEntryInput)
    (newId : String) (now : Int) (taskUpdateFails : Bool) :
    Except GoErr TimeEntry × Store :=
  if input.taskId = "" then (.error .errInvalidTaskID, st)
  else
    match TimeEntryRepository.getActive st.entries with
    | .ok _ =>
      -- err == nil && activeEntry != nil
      (.error .errActiveTimeEntry, st)
    | .error _ =>
      match TaskRepository.getByID st.tasks input.taskId with
      | .error e => (.error (.wrapped "failed to get task" e), st)
      | .ok task =>
        let entry := NewTimeEntry input.taskId task.projectId input.description newId now
        let entries' := TimeEntryRepository.create st.entries entry
        if task.status ≠ .doing then
          if taskUpdateFails then
            -- warning printed, start still succeeds, tasks table unchanged
            (.ok entry, { st with entries := entries' })
          else
            match TaskRepository.update st.tasks (task.start now) with
            | .ok tasks' => (.ok entry, { st with tasks := tasks', entries := entries' })
            | .error _ => (.ok entry, { st with entries := entries' })
        else
          (.ok entry, { st with entries := entries' })

/-- `Service.StopTimeTracking`. -/
def StopTimeTracking (st : Store) (now : Int) : Except GoErr TimeEntry × Store :=
  match TimeEntryRepository.getActive st.entries with
  | .error e => (.error (.wrapped "failed to get active time entry" e), st)
  | .ok entry =>
    -- the Go `entry == nil` re-check cannot fire: GetActive never
    -- returns (nil, nil)
    let stopped := entry.stop now
    match TimeEntryRepository.update st.entries stopped with
    | .error e => (.error (.wrapped "failed to update time entry" e), st)
    | .ok entries' => (.ok stopped, { st with entries := entries' })

/-- `Service.GetActiveTimeEntry`: maps the repository's
`ErrNoActiveTimeEntry` (compared with `==`) to `(nil, nil)`. -/
def GetActiveTimeEntry (st : Store) : Except GoErr (Option TimeEntry) :=
  match TimeEntryRepository.getActive st.entries with
  | .error e =>
    if e = .errNoActiveTimeEntry then .ok none
    else .error (.wrapped "failed to get active time entry" e)
  | .ok entry => .ok (some entry)

/-- `Service.ListTimeEntries`: copies the options into a
`domain.TimeEntryFilter` and delegates to the repository. -/
def ListTimeEntries (st : Store) (options : ListOptions) : List TimeEntry :=
  TimeEntryRepository.list st.entries
    { taskId := options.taskId
      projectId := options.projectId
      startAfter := options.startAfter
      endBefore := options.endBefore
      active := options.active
      limit := options.limit
      offset := options.offset }

/-- `time.TaskTimeReport`. -/
structure TaskTimeReport where
  taskId : String
  taskTitle : String
  totalDuration : Int
  entries : List TimeEntry
deriving Repr

/-- `time.ProjectTimeReport`. -/
structure ProjectTimeReport where
  projectId : String
  projectName : String
  totalDuration : Int
  entries : List TimeEntry
deriving Repr

/-- `time.DayTimeReport`. -/
structure DayTimeReport where
  date : Int
  totalDuration : Int
  entries : List TimeEntry
deriving Repr

/-- `time.TimeReport`.  The three Go maps are modelled as association
lists (Go map iteration order never matters to the verified
properties). -/
structure TimeReport where
  totalDuration : Int
  entries : List TimeEntry
  byTask : List (String × TaskTimeReport)
  byProject : List (String × ProjectTimeReport)
  byDay : List (Int × DayTimeReport)
deriving Repr

def nanosPerDay : Int := 86400000000000

/-- The day bucket of `entry.StartTime.Format("2006-01-02")`: an
injective day key.  (Go formats in the local time zone; the verified
properties only use that this function buckets entries by day.) -/
def dayKey (te : TimeEntry) : Int :=
  Int.fdiv te.startTime nanosPerDay

/-- Go `report.ByX[k] = updated-or-fresh` on a map modelled as an
association list: update in place when the key exists, append
otherwise. -/
def updateAssoc {β : Type} [DecidableEq κ] (m : List (κ × β)) (k : κ)
    (f : β → β) (fresh : β) : List (κ × β) :=
  match m with
  | [] => [(k, fresh)]
  | (k', v) :: rest =>
    if k' = k then (k', f v) :: rest
    else (k', v) :: updateAssoc rest k f fresh

/-- The body of the `for _, entry := range entries` loop of
`Service.GenerateReport`. -/
def reportStep (tasks : List Task) (now : Int) (r : TimeReport) (entry : TimeEntry) :
    TimeReport :=
  let duration := entry.getDuration now
  let taskTitle :=
    match TaskRepository.getByID tasks entry.taskId with
    | .ok task => task.title
    | .error _ => entry.taskId -- fallback
  { r with
    totalDuration := r.totalDuration + duration
    byTask :=
      updateAssoc r.byTask entry.taskId
        (fun tr => { tr with totalDuration := tr.totalDuration + duration
                             entries := tr.entries ++ [entry] })
        { taskId := entry.taskId
          taskTitle := taskTitle
          totalDuration := duration
          entries := [entry] }
    byProject :=
      updateAssoc r.byProject entry.projectId
        (fun pr => { pr with totalDuration := pr.totalDuration + duration
                             entries := pr.entries ++ [entry] })
        { projectId := entry.projectId
          projectName := entry.projectId -- TODO in source: actual project name
          totalDuration := duration
          entries := [entry] }
    byDay :=
      updateAssoc r.byDay (dayKey entry)
        (fun dr => { dr with totalDuration := dr.totalDuration + duration
                             entries := dr.entries ++ [entry] })
        { date := dayKey entry * nanosPerDay
          totalDuration := duration
          entries := [entry] } }

/-- `Service.GenerateReport`: list the entries with
`StartAfter = startDate`, `EndBefore = endDate`, then fold the grouping
loop. -/
def GenerateReport (st : Store) (startDate endDate : Int) (now : Int) : TimeReport :=
  let entries := ListTimeEntries st { startAfter := some startDate, endBefore := some endDate }
  entries.foldl (reportStep st.tasks now)
    { totalDuration := 0
      entries := entries
      byTask := []
      byProject := []
      byDay := [] }

end TimeService

/-! ## Task service (`internal/service/task`)

The natural-language due-date parser (`olebedev/when`) and the git
collaborator are external (spec §1, §6); they enter as the explicit
parameters `parseDueDate` and `gitBranch` (`some b` models "in a git
repository, current branch `b` obtained without error"). -/

namespace TaskService

/-- `task.CreateTaskInput`. -/
structure CreateTaskInput where
  title : String := ""
  description : String := ""
  priority : Priority := .low
  projectId : String := ""
  parentId : Option String := none
  tags : List String := []
  changelist : String := ""
  dueDate : String := ""
deriving Repr

/-- `task.UpdateTaskInput`: `nil` pointer fields mean "leave unchanged". -/
structure UpdateTaskInput where
  id : String
  title : Option String := none
  description : Option String := none
  status : Option TaskStatus := none
  priority : Option Priority := none
  projectId : Option String := none
  parentId : Option String := none
  tags : Option (List String) := none
  changelist : Option String := none
  dueDate : Option String := none
deriving Repr

/-- `Service.CreateTask`.  No validation of `ParentID` is performed. -/
def CreateTask (st : Store) (input : CreateTaskInput)
    (parseDueDate : String → Option Int) (gitBranch : Option String)
    (newId : String) (now : Int) : Except GoErr Task × Store :=
  if input.title = "" then (.error .errEmptyTitle, st)
  else
    let task := NewTask input.title input.description newId now
    let task := { task with
      priority := input.priority
      projectId := input.projectId
      parentId := input.parentId
      tags := input.tags
      changelist := input.changelist }
    let parsed : Except GoErr Task :=
      if input.dueDate ≠ "" then
        match parseDueDate input.dueDate with
        | some d => .ok { task with dueDate := some d }
        | none => .error (.wrapped "invalid due date format" .errInvalidDueDate)
      else .ok task
    match parsed with
    | .error e => (.error e, st)
    | .ok task =>
      let task :=
        match gitBranch with
        | some branch => task.addTag ("branch:" ++ branch) now
        | none => task
      (.ok task, { st with tasks := TaskRepository.create st.tasks task })

/-- `Service.UpdateTask`.  The `Status` branch keeps
`CompletedAt` in sync with `status == done`; the `ParentID` branch
assigns the reference with no cycle check. -/
def UpdateTask (st : Store) (input : UpdateTaskInput)
    (parseDueDate : String → Option Int) (now : Int) : Except GoErr Task × Store :=
  if input.id = "" then (.error .errInvalidTaskID, st)
  else
    match TaskRepository.getByID st.tasks input.id with
    | .error e => (.error (.wrapped "failed to get task for update" e), st)
    | .ok task =>
      let step : Except GoErr Task := .ok task
      let step := step.bind fun task =>
        match input.title with
        | some t => if t = "" then .error .errEmptyTitle else .ok { task with title := t }
        | none => .ok task
      let step := step.map fun task =>
        match input.description with
        | some d => { task with description := d }
        | none => task
      let step := step.map fun task =>
        match input.status with
        | some s =>
          { task with status := s
                      completedAt := if s = TaskStatus.done then some now else none }
        | none => task
      let step := step.map fun task =>
        match input.priority with
        | some p => { task with priority := p }
        | none => task
      let step := step.map fun task =>
        match input.projectId with
        | some pid => { task with projectId := pid }
        | none => task
      let step := step.map fun task =>
        match input.parentId with
        | some pid => { task with parentId := some pid }
        | none => task
      let step := step.map fun task =>
        match input.tags with
        | some ts => { task with tags := ts }
        | none => task
      let step := step.map fun task =>
        match input.changelist with
        | some c => { task with changelist := c }
        | none => task
      let step := step.bind fun task =>
        match input.dueDate with
        | some ds =>
          if ds = "" then .ok { task with dueDate := none }
          else
            match parseDueDate ds with
            | some d => .ok { task with dueDate := some d }
            | none => .error (.wrapped "invalid due date format" .errInvalidDueDate)
        | none => .ok task
      match step with
      | .error e => (.error e, st)
      | .ok task =>
        let task := { task with updatedAt := now }
        match TaskRepository.update st.tasks task with
        | .error e => (.error (.wrapped "failed to update task" e), st)
        | .ok tasks' => (.ok task, { st with tasks := tasks' })

/-- `Service.CompleteTask`: `UpdateTask` with `Status = done`. -/
def CompleteTask (st : Store) (id : String)
    (parseDueDate : String → Option Int) (now : Int) : Except GoErr Task × Store :=
  UpdateTask st { id := id, status := some .done } parseDueDate now

/-- `Service.StartTask`: `UpdateTask` with `Status = doing`. -/
def StartTask (st : Store) (id : String)
    (parseDueDate : String → Option Int) (now : Int) : Except GoErr Task × Store :=
  UpdateTask st { id := id, status := some .doing } parseDueDate now

end TaskService

/-! ## Project service (`internal/service/project`) -/

namespace ProjectService

/-- `project.UpdateProjectInput`. -/
structure UpdateProjectInput where
  id : String
  name : Option String := none
  description : Option String := none
  status : Option ProjectStatus := none
  color : Option String := none
deriving Repr

/-- `Service.UpdateProject`.  The `Status` branch assigns the status and
then dispatches to the matching `Project` helper (`Archive`, `Complete`,
`Activate`, `PutOnHold`). -/
def UpdateProject (st : Store) (input : UpdateProjectInput) (now : Int) :
    Except GoErr Project × Store :=
  if input.id = "" then (.error .errInvalidProjectID, st)
  else
    match ProjectRepository.getByID st.projects input.id with
    | .error e => (.error (.wrapped "failed to get project for update" e), st)
    | .ok project =>
      let step : Except GoErr Project := .ok project
      let step := step.bind fun project =>
        match input.name with
        | some n =>
          if n = "" then .error .errEmptyName
          else
            match ProjectRepository.getByName st.projects n with
            | .ok existing =>
              if existing.id ≠ project.id then .error .errDuplicateProject
              else .ok { project with name := n }
            | .error _ => .ok { project with name := n }
        | none => .ok project
      let step := step.map fun project =>
        match input.description with
        | some d => { project with description := d }
        | none => project
      let step := step.map fun project =>
        match input.status with
        | some s =>
          let project := { project with status := s }
          match s with
          | .archived => project.archive now
          | .completed => project.complete now
          | .active => project.activate now
          | .onHold => project.putOnHold now
        | none => project
      let step := step.map fun project =>
        match input.color with
        | some c => { project with color := c }
        | none => project
      match step with
      | .error e => (.error e, st)
      | .ok project =>
        match ProjectRepository.update st.projects project with
        | .error e => (.error (.wrapped "failed to update project" e), st)
        | .ok projects' => (.ok project, { st with projects := projects' })

/-- `Service.ArchiveProject`. -/
def ArchiveProject (st : Store) (id : String) (now : Int) : Except GoErr Project × Store :=
  UpdateProject st { id := id, status := some .archived } now

/-- `Service.CompleteProject`. -/
def CompleteProject (st : Store) (id : String) (now : Int) : Except GoErr Project × Store :=
  UpdateProject st { id := id, status := some .completed } now

/-- `Service.ActivateProject`. -/
def ActivateProject (st : Store) (id : String) (now : Int) : Except GoErr Project × Store :=
  UpdateProject st { id := id, status := some .active } now

/-- `Service.PutProjectOnHold`. -/
def PutProjectOnHold (st : Store) (id : String) (now : Int) : Except GoErr Project × Store :=
  UpdateProject st { id := id, status := some .onHold } now

end ProjectService

/-! ## Interactive UI (`internal/ui/models`)

The bubbletea runtime is external.  A `tea.KeyMsg` is a `Key`; every
`key.Matches(msg, binding)` call is translated against the binding's
literal key list from the source.  A `tea.Cmd` closure that just
returns a message becomes `Cmd.emit`; the repository-calling commands
(`loadTasks`, `saveTask`, ...) become effect descriptors carrying their
data.  `tea.Batch` is list concatenation in issue order. -/

/-- Key presses distinguished by the key maps of the source. -/
inductive Key where
  | up
  | down
  | left
  | right
  | enter
  | esc
  | tab
  | shiftTab
  | ctrlS
  | ctrlC
  | ch (c : Char)
deriving DecidableEq, Repr

/-- The message union (`tea.Msg` values occurring in the source).
`TaskActionMsg.Task` and `ProjectActionMsg.Project` are nullable
pointers in Go, hence `Option`. -/
inductive Msg where
  | windowSize (width height : Nat)
  | key (k : Key)
  | errorMsg (s : String)
  | successMsg (s : String)
  | activeTimeEntry (entry : Option TimeEntry)
  | dashboardAction (action : String)
  | taskAction (action : String) (task : Option Task)
  | taskFormSubmit (task : Task)
  | taskFormCancel
  | taskListLoaded (tasks : List Task)
  | projectListLoaded (projects : List Project)
  | projectAction (action : String) (project : Option Project)
deriving DecidableEq, Repr

/-- Effect descriptors: the `tea.Cmd`s issued by `AppModel`. -/
inductive Cmd where
  | emit (msg : Msg)
  | loadTasks
  | loadProjects
  | loadTasksForProject (projectId : String)
  | loadActiveTimeEntry
  | saveTask (task : Task)
  | deleteTask (task : Task)
  | quit
deriving DecidableEq, Repr

/-- Impure inputs of the UI layer: the due-date parser
(`time.Parse("2006-01-02", ...)`), the date formatter
(`Format("2006-01-02")`), a fresh uuid and the clock. -/
structure Env where
  parseDate : String → Option Int
  formatDate : Int → String
  newId : String
  now : Int

/-- Model of the external `bubbles/textinput` component: a text buffer
plus focus state (placeholder, char limit and width are display-only). -/
structure TextInput where
  value : String := ""
  focused : Bool := false
deriving DecidableEq, Repr

def TextInput.setValue (ti : TextInput) (s : String) : TextInput :=
  { ti with value := s }

def TextInput.focus (ti : TextInput) : TextInput :=
  { ti with focused := true }

def TextInput.blur (ti : TextInput) : TextInput :=
  { ti with focused := false }

/-- The external textinput consumes printable key presses into the
buffer when focused and ignores everything else. -/
def TextInput.update (ti : TextInput) (msg : Msg) : TextInput :=
  match msg with
  | .key (.ch c) => if ti.focused then { ti with value := ti.value.push c } else ti
  | _ => ti

/-! ### TaskFormModel (`task_form.go`) -/

/-- `TaskFormModel`. -/
structure TaskFormModel where
  titleInput : TextInput
  descriptionInput : TextInput
  tagsInput : TextInput
  changelistInput : TextInput
  dueDateInput : TextInput
  focusedField : Nat
  task : Option Task
  isEditing : Bool
deriving DecidableEq, Repr

/-- `NewTaskFormModel`: title input starts focused. -/
def NewTaskFormModel : TaskFormModel :=
  { titleInput := { focused := true }
    descriptionInput := {}
    tagsInput := {}
    changelistInput := {}
    dueDateInput := {}
    focusedField := 0
    task := none
    isEditing := false }

/-- `TaskFormModel.LoadTask`. -/
def TaskFormModel.loadTask (m : TaskFormModel) (env : Env) (task : Task) : TaskFormModel :=
  { m with
    task := some task
    isEditing := true
    titleInput := m.titleInput.setValue task.title
    descriptionInput := m.descriptionInput.setValue task.description
    tagsInput :=
      if task.tags.length > 0 then m.tagsInput.setValue (String.intercalate ", " task.tags)
      else m.tagsInput
    changelistInput :=
      if task.changelist ≠ "" then m.changelistInput.setValue task.changelist
      else m.changelistInput
    dueDateInput :=
      match task.dueDate with
      | some d => m.dueDateInput.setValue (env.formatDate d)
      | none => m.dueDateInput }

/-- `updateFocus`: blur all five inputs, focus the selected one. -/
def TaskFormModel.updateFocus (m : TaskFormModel) : TaskFormModel :=
  let m := { m with
    titleInput := m.titleInput.blur
    descriptionInput := m.descriptionInput.blur
    tagsInput := m.tagsInput.blur
    changelistInput := m.changelistInput.blur
    dueDateInput := m.dueDateInput.blur }
  match m.focusedField with
  | 0 => { m with titleInput := m.titleInput.focus }
  | 1 => { m with descriptionInput := m.descriptionInput.focus }
  | 2 => { m with tagsInput := m.tagsInput.focus }
  | 3 => { m with changelistInput := m.changelistInput.focus }
  | 4 => { m with dueDateInput := m.dueDateInput.focus }
  | _ => m

/-- The trailing "update the focused input" block of
`TaskFormModel.Update`. -/
def TaskFormModel.updateFocusedInput (m : TaskFormModel) (msg : Msg) : TaskFormModel :=
  match m.focusedField with
  | 0 => { m with titleInput := m.titleInput.update msg }
  | 1 => { m with descriptionInput := m.descriptionInput.update msg }
  | 2 => { m with tagsInput := m.tagsInput.update msg }
  | 3 => { m with changelistInput := m.changelistInput.update msg }
  | 4 => { m with dueDateInput := m.dueDateInput.update msg }
  | _ => m

/-- `TaskFormModel.handleSubmit`: title validation, base task selection
(mutate the bound task when editing, fresh `NewTask` otherwise), field
population, due-date validation, then the submit message. -/
def TaskFormModel.handleSubmit (m : TaskFormModel) (env : Env) :
    TaskFormModel × Option Msg :=
  if trimSpace m.titleInput.value = "" then
    (m, some (.errorMsg "Title is required"))
  else
    let task :=
      match m.isEditing, m.task with
      | true, some t => t
      | _, _ =>
        NewTask (trimSpace m.titleInput.value) (trimSpace m.descriptionInput.value)
          env.newId env.now
    let task := { task with
      title := trimSpace m.titleInput.value
      description := trimSpace m.descriptionInput.value }
    let task :=
      if trimSpace m.tagsInput.value ≠ "" then
        let parsedTags :=
          ((splitOnComma (trimSpace m.tagsInput.value)).map trimSpace).filter
            (fun tag => tag ≠ "")
        { task with tags := parsedTags }
      else task
    let task :=
      if trimSpace m.changelistInput.value ≠ "" then
        { task with changelist := trimSpace m.changelistInput.value }
      else task
    let dueDateText := trimSpace m.dueDateInput.value
    if dueDateText ≠ "" then
      match env.parseDate dueDateText with
      | some d =>
        (m, some (.taskFormSubmit { task with dueDate := some d, updatedAt := env.now }))
      | none => (m, some (.errorMsg "Invalid due date format. Use YYYY-MM-DD"))
    else
      (m, some (.taskFormSubmit { task with updatedAt := env.now }))

/-- `TaskFormModel.Update`.  Key bindings: submit = ctrl+s,
cancel = esc, next = tab, prev = shift+tab; tab/shift-tab fall through
to the focused-input update like the Go switch does. -/
def TaskFormModel.update (m : TaskFormModel) (env : Env) (msg : Msg) :
    TaskFormModel × Option Msg :=
  match msg with
  | .key k =>
    if k = .ctrlS then m.handleSubmit env
    else if k = .esc then (m, some .taskFormCancel)
    else
      let m :=
        if k = .tab then
          TaskFormModel.updateFocus { m with focusedField := (m.focusedField + 1) % 5 }
        else if k = .shiftTab then
          -- Go: (focusedField - 1 + 5) % 5 on a non-negative int
          TaskFormModel.updateFocus { m with focusedField := (m.focusedField + 4) % 5 }
        else m
      (m.updateFocusedInput msg, none)
  | _ => (m.updateFocusedInput msg, none)

/-! ### TaskListModel (`task_list.go`) -/

/-- `domain.TaskFilter` (held but not consulted by the list model). -/
structure TaskFilter where
  status : List TaskStatus := []
  priority : List Priority := []
  projectId : String := ""
  tags : List String := []
  search : String := ""
  dueBefore : Option Int := none
  dueAfter : Option Int := none
  limit : Nat := 0
  offset : Nat := 0
deriving Repr

/-- `TaskListModel`. -/
structure TaskListModel where
  tasks : List Task := []
  selectedIndex : Nat := 0
  filter : TaskFilter := {}
  loading : Bool := false

/-- `NewTaskListModel`. -/
def NewTaskListModel : TaskListModel := {}

/-- `TaskListModel.Update`.  Bindings: up = up/k, down = down/j,
enter, new = n, edit = e, delete = d, toggle = t (checked in the source's
case order).  In Go the toggled `*domain.Task` is mutated in place, so
the same value both stays in `m.tasks` and rides in the action message;
here the list is updated with `List.set` and the message carries the
same updated task.  Note the done→todo arm only rewrites `Status` and
leaves `CompletedAt` untouched. -/
def TaskListModel.update (m : TaskListModel) (msg : Msg) (now : Int) :
    TaskListModel × Option Msg :=
  match msg with
  | .key k =>
    if m.tasks.length = 0 then
      if k = .ch 'n' then (m, some (.taskAction "new" none))
      else (m, none)
    else
      if k = .up ∨ k = .ch 'k' then
        if m.selectedIndex > 0 then
          ({ m with selectedIndex := m.selectedIndex - 1 }, none)
        else (m, none)
      else if k = .down ∨ k = .ch 'j' then
        if m.selectedIndex < m.tasks.length - 1 then
          ({ m with selectedIndex := m.selectedIndex + 1 }, none)
        else (m, none)
      else if k = .enter then
        if h : m.selectedIndex < m.tasks.length then
          (m, some (.taskAction "select" (some m.tasks[m.selectedIndex])))
        else (m, none)
      else if k = .ch 'n' then (m, some (.taskAction "new" none))
      else if k = .ch 'e' then
        if h : m.selectedIndex < m.tasks.length then
          (m, some (.taskAction "edit" (some m.tasks[m.selectedIndex])))
        else (m, none)
      else if k = .ch 't' then
        if h : m.selectedIndex < m.tasks.length then
          let task := m.tasks[m.selectedIndex]
          let task :=
            if task.status = .done then { task with status := .todo }
            else task.complete now
          ({ m with tasks := m.tasks.set m.selectedIndex task },
           some (.taskAction "update" (some task)))
        else (m, none)
      else if k = .ch 'd' then
        if h : m.selectedIndex < m.tasks.length then
          (m, some (.taskAction "delete" (some m.tasks[m.selectedIndex])))
        else (m, none)
      else (m, none)
  | .taskListLoaded ts =>
    let m := { m with tasks := ts, loading := false }
    if m.selectedIndex ≥ ts.length ∧ ts.length > 0 then
      ({ m with selectedIndex := ts.length - 1 }, none)
    else (m, none)
  | _ => (m, none)

/-- `TaskListModel.LoadTasks`. -/
def TaskListModel.loadTasks (m : TaskListModel) (ts : List Task) : TaskListModel :=
  let m := { m with tasks := ts }
  if m.selectedIndex ≥ ts.length ∧ ts.length > 0 then
    { m with selectedIndex := ts.length - 1 }
  else m

/-! ### TaskDetailModel (`task_detail.go`) -/

/-- `TaskDetailModel`. -/
structure TaskDetailModel where
  task : Option Task := none

/-- `NewTaskDetailModel`. -/
def NewTaskDetailModel : TaskDetailModel := {}

/-- `TaskDetailModel.SetTask` (takes a nullable `*domain.Task`). -/
def TaskDetailModel.setTask (m : TaskDetailModel) (t : Option Task) : TaskDetailModel :=
  { m with task := t }

/-- `TaskDetailModel.Update`: edit = e, delete = d, toggle = t; no-op
when no task is bound. -/
def TaskDetailModel.update (m : TaskDetailModel) (msg : Msg) (now : Int) :
    TaskDetailModel × Option Msg :=
  match m.task with
  | none => (m, none)
  | some task =>
    match msg with
    | .key k =>
      if k = .ch 'e' then (m, some (.taskAction "edit" (some task)))
      else if k = .ch 'd' then (m, some (.taskAction "delete" (some task)))
      else if k = .ch 't' then
        let task :=
          if task.status = .done then { task with status := .todo }
          else task.complete now
        ({ m with task := some task }, some (.taskAction "update" (some task)))
      else (m, none)
    | _ => (m, none)

/-! ### DashboardModel (`dashboard.go`) -/

/-- `DashboardItem`. -/
structure DashboardItem where
  title : String
  description : String
  action : String
  icon : String
deriving Repr

/-- `DashboardModel`. -/
structure DashboardModel where
  selectedIndex : Nat
  menuItems : List DashboardItem

/-- `NewDashboardModel`: the fixed five-item menu. -/
def NewDashboardModel : DashboardModel :=
  { selectedIndex := 0
    menuItems :=
      [ { title := "Tasks", description := "View and manage your tasks",
          action := "tasks", icon := "[T]" }
      , { title := "Projects", description := "Manage your projects",
          action := "projects", icon := "[P]" }
      , { title := "Time Tracking", description := "Track time spent on tasks",
          action := "time", icon := "[TM]" }
      , { title := "New Task", description := "Create a new task",
          action := "new_task", icon := "[+]" }
      , { title := "Reports", description := "View productivity reports",
          action := "reports", icon := "[R]" } ] }

/-- `DashboardModel.Update`: up = up/k, down = down/j, enter emits the
selected item's action (the Go code indexes unconditionally; the index
stays in range by construction, modelled with `getD`). -/
def DashboardModel.update (m : DashboardModel) (msg : Msg) :
    DashboardModel × Option Msg :=
  match msg with
  | .key k =>
    if k = .up ∨ k = .ch 'k' then
      if m.selectedIndex > 0 then
        ({ m with selectedIndex := m.selectedIndex - 1 }, none)
      else (m, none)
    else if k = .down ∨ k = .ch 'j' then
      if m.selectedIndex < m.menuItems.length - 1 then
        ({ m with selectedIndex := m.selectedIndex + 1 }, none)
      else (m, none)
    else if k = .enter then
      let selectedItem := m.menuItems.getD m.selectedIndex
        { title := "", description := "", action := "", icon := "" }
      (m, some (.dashboardAction selectedItem.action))
    else (m, none)
  | _ => (m, none)

/-! ### ProjectListModel (`project_list.go`) -/

/-- `ProjectListModel`. -/
structure ProjectListModel where
  projects : List Project := []
  selectedIndex : Nat := 0
  loading : Bool := false

/-- `NewProjectListModel`. -/
def NewProjectListModel : ProjectListModel := {}

/-- `ProjectListModel.Update`: up = up/k, down = down/j, enter, new = n,
edit = e. -/
def ProjectListModel.update (m : ProjectListModel) (msg : Msg) :
    ProjectListModel × Option Msg :=
  match msg with
  | .key k =>
    if m.projects.length = 0 then
      if k = .ch 'n' then (m, some (.projectAction "new" none))
      else (m, none)
    else
      if k = .up ∨ k = .ch 'k' then
        if m.selectedIndex > 0 then
          ({ m with selectedIndex := m.selectedIndex - 1 }, none)
        else (m, none)
      else if k = .down ∨ k = .ch 'j' then
        if m.selectedIndex < m.projects.length - 1 then
          ({ m with selectedIndex := m.selectedIndex + 1 }, none)
        else (m, none)
      else if k = .enter then
        if h : m.selectedIndex < m.projects.length then
          (m, some (.projectAction "select" (some m.projects[m.selectedIndex])))
        else (m, none)
      else if k = .ch 'n' then (m, some (.projectAction "new" none))
      else if k = .ch 'e' then
        if h : m.selectedIndex < m.projects.length then
          (m, some (.projectAction "edit" (some m.projects[m.selectedIndex])))
        else (m, none)
      else (m, none)
  | .projectListLoaded ps =>
    let m := { m with projects := ps, loading := false }
    if m.selectedIndex ≥ ps.length ∧ ps.length > 0 then
      ({ m with selectedIndex := ps.length - 1 }, none)
    else (m, none)
  | _ => (m, none)

/-- `ProjectListModel.LoadProjects`. -/
def ProjectListModel.loadProjects (m : ProjectListModel) (ps : List Project) :
    ProjectListModel :=
  let m := { m with projects := ps }
  if m.selectedIndex ≥ ps.length ∧ ps.length > 0 then
    { m with selectedIndex := ps.length - 1 }
  else m

/-! ### AppModel (`app.go`): the root controller -/

/-- `ViewState` constants in source (iota) order. -/
inductive ViewState where
  | taskListView
  | taskDetailView
  | taskFormView
  | projectListView
  | projectFormView
  | timeTrackingView
  | dashboardView
  | helpView
deriving DecidableEq, Repr

/-- Placeholder `ProjectFormModel` (a TODO stub in the source). -/
structure ProjectFormModel where
deriving DecidableEq, Repr

def NewProjectFormModel : ProjectFormModel := {}

def ProjectFormModel.update (m : ProjectFormModel) (_msg : Msg) :
    ProjectFormModel × Option Msg :=
  (m, none)

/-- `AppModel`.  The repository handles are not state (effects are
descriptors); the constant key map is folded into the match functions. -/
structure AppModel where
  currentView : ViewState
  width : Nat
  height : Nat
  taskList : TaskListModel
  taskDetail : TaskDetailModel
  taskForm : TaskFormModel
  projectList : ProjectListModel
  projectForm : ProjectFormModel
  dashboard : DashboardModel
  selectedTask : Option Task
  selectedProject : Option Project
  activeTimeEntry : Option TimeEntry
  error : String
  success : String

/-- `NewAppModel`: starts on the dashboard. -/
def NewAppModel : AppModel :=
  { currentView := .dashboardView
    width := 0
    height := 0
    taskList := NewTaskListModel
    taskDetail := NewTaskDetailModel
    taskForm := NewTaskFormModel
    projectList := NewProjectListModel
    projectForm := NewProjectFormModel
    dashboard := NewDashboardModel
    selectedTask := none
    selectedProject := none
    activeTimeEntry := none
    error := ""
    success := "" }

/-- A sub-model's returned `tea.Cmd` (possibly nil) as a command list. -/
def cmdsOf : Option Msg → List Cmd
  | some msg => [.emit msg]
  | none => []

/-- The "Delegate to current view" tail of `AppModel.Update`: run the
active sub-model, then translate any action message the controller
recognizes.  Views absent from the Go switch (`ProjectFormView`,
`TimeTrackingView`, `HelpView`) delegate to nothing.  Action messages
whose `Task`/`Project` pointer the Go code would dereference are
translated only for non-nil payloads (the emitting sub-models always
attach one). -/
def AppModel.delegate (env : Env) (m : AppModel) (msg : Msg) : AppModel × List Cmd :=
  match m.currentView with
  | .dashboardView =>
    let (d, c) := m.dashboard.update msg
    let m := { m with dashboard := d }
    let cmds := cmdsOf c
    match msg with
    | .dashboardAction a =>
      if a = "tasks" then
        ({ m with currentView := .taskListView }, cmds ++ [.loadTasks])
      else if a = "projects" then
        ({ m with currentView := .projectListView }, cmds ++ [.loadProjects])
      else if a = "new_task" then
        ({ m with currentView := .taskFormView, taskForm := NewTaskFormModel }, cmds)
      else (m, cmds)
    | _ => (m, cmds)
  | .taskListView =>
    let (tl, c) := m.taskList.update msg env.now
    let m := { m with taskList := tl }
    let cmds := cmdsOf c
    match msg with
    | .taskAction a t =>
      if a = "select" then
        ({ m with selectedTask := t
                  taskDetail := m.taskDetail.setTask t
                  currentView := .taskDetailView }, cmds)
      else if a = "new" then
        ({ m with currentView := .taskFormView, taskForm := NewTaskFormModel }, cmds)
      else if a = "edit" then
        match t with
        | some task =>
          ({ m with selectedTask := some task
                    currentView := .taskFormView
                    taskForm := NewTaskFormModel.loadTask env task }, cmds)
        | none => (m, cmds)
      else if a = "delete" then
        match t with
        | some task => (m, cmds ++ [.deleteTask task, .loadTasks])
        | none => (m, cmds)
      else if a = "update" then
        match t with
        | some task => (m, cmds ++ [.saveTask task, .loadTasks])
        | none => (m, cmds)
      else (m, cmds)
    | _ => (m, cmds)
  | .taskDetailView =>
    let (td, c) := m.taskDetail.update msg env.now
    let m := { m with taskDetail := td }
    let cmds := cmdsOf c
    match msg with
    | .taskAction a t =>
      if a = "edit" then
        match t with
        | some task =>
          ({ m with selectedTask := some task
                    currentView := .taskFormView
                    taskForm := NewTaskFormModel.loadTask env task }, cmds)
        | none => (m, cmds)
      else if a = "delete" then
        match t with
        | some task =>
          ({ m with currentView := .taskListView }, cmds ++ [.deleteTask task, .loadTasks])
        | none => ({ m with currentView := .taskListView }, cmds)
      else if a = "update" then
        match t with
        | some task =>
          ({ m with taskDetail := m.taskDetail.setTask t }, cmds ++ [.saveTask task])
        | none => (m, cmds)
      else (m, cmds)
    | _ => (m, cmds)
  | .taskFormView =>
    let (tf, c) := m.taskForm.update env msg
    let m := { m with taskForm := tf }
    let cmds := cmdsOf c
    match msg with
    | .taskFormSubmit task =>
      ({ m with currentView := .taskListView }, cmds ++ [.saveTask task, .loadTasks])
    | _ => (m, cmds)
  | .projectListView =>
    let (pl, c) := m.projectList.update msg
    let m := { m with projectList := pl }
    let cmds := cmdsOf c
    match msg with
    | .projectListLoaded ps =>
      ({ m with projectList := m.projectList.loadProjects ps }, cmds)
    | .projectAction a p =>
      if a = "select" then
        match p with
        | some project =>
          ({ m with selectedProject := some project
                    currentView := .taskListView },
           cmds ++ [.loadTasksForProject project.id])
        | none => (m, cmds)
      else (m, cmds)
    | _ => (m, cmds)
  | _ => (m, [])

/-- `AppModel.Update`: global key interception (quit = q/ctrl+c,
help = ?, back = esc, refresh = r), then the terminal message branches
(`ErrorMsg`, `SuccessMsg`, `ActiveTimeEntryMsg`), everything else
delegated; `loadInitialData` is the batch `[loadTasks, loadProjects]`. -/
def AppModel.update (env : Env) (m : AppModel) (msg : Msg) : AppModel × List Cmd :=
  match msg with
  | .windowSize w h =>
    AppModel.delegate env { m with width := w, height := h } msg
  | .key k =>
    if k = .ch 'q' ∨ k = .ctrlC then (m, [.quit])
    else if k = .ch '?' then ({ m with currentView := .helpView }, [])
    else if k = .esc then
      if m.currentView ≠ .dashboardView then
        ({ m with currentView := .dashboardView, error := "", success := "" },
         [.loadTasks, .loadProjects])
      else AppModel.delegate env m msg
    else if k = .ch 'r' then (m, [.loadTasks, .loadProjects])
    else AppModel.delegate env m msg
  | .errorMsg s => ({ m with error := s }, [])
  | .successMsg s => ({ m with success := s }, [])
  | .activeTimeEntry e => ({ m with activeTimeEntry := e }, [])
  | _ => AppModel.delegate env m msg

/-! ## Verified properties

First some bookkeeping lemmas about the repository model, then one
theorem (plus witness / counterexample where applicable) per claim. -/

/-- Number of active (null `end_time`) rows in the time-entry table. -/
def activeCount (entries : List TimeEntry) : Nat :=
  entries.countP TimeEntry.isActive

theorem mem_insertByStartDesc {a te : TimeEntry} {l : List TimeEntry} :
    a ∈ insertByStartDesc te l ↔ a = te ∨ a ∈ l := by
  induction l with
  | nil => simp [insertByStartDesc]
  | cons b rest ih =>
    simp only [insertByStartDesc]
    split
    · simp [ih]
      tauto
    · simp


theorem mem_sortByStartDesc {a : TimeEntry} {l : List TimeEntry} :
    a ∈ sortByStartDesc l ↔ a ∈ l := by
  induction l with
  | nil => simp [sortByStartDesc]
  | cons b rest ih =>
    simp only [sortByStartDesc, mem_insertByStartDesc, ih, List.mem_cons]

theorem insertByStartDesc_ne_nil (te : TimeEntry) (l : List TimeEntry) :
    insertByStartDesc te l ≠ [] := by
  cases l with
  | nil => simp [insertByStartDesc]
  | cons b rest =>
    simp only [insertByStartDesc]
    split <;> simp

theorem sortByStartDesc_eq_nil_iff {l : List TimeEntry} :
    sortByStartDesc l = [] ↔ l = [] := by
  cases l with
  | nil => simp [sortByStartDesc]
  | cons b rest =>
    simp only [sortByStartDesc]
    constructor
    · intro h
      exact absurd h (insertByStartDesc_ne_nil b (sortByStartDesc rest))
    · intro h
      exact absurd h (by simp)

theorem sum_map_insertByStartDesc (f : TimeEntry → Int) (te : TimeEntry)
    (l : List TimeEntry) :
    ((insertByStartDesc te l).map f).sum = f te + (l.map f).sum := by
  induction l with
  | nil => simp [insertByStartDesc]
  | cons b rest ih =>
    simp only [insertByStartDesc]
    split
    · simp [ih]
      ring
    · simp

theorem sum_map_sortByStartDesc (f : TimeEntry → Int) (l : List TimeEntry) :
    ((sortByStartDesc l).map f).sum = (l.map f).sum := by
  induction l with
  | nil => rfl
  | cons b rest ih =>
    simp only [sortByStartDesc, sum_map_insertByStartDesc, ih, List.map_cons,
      List.sum_cons]

/-- `GetActive` errs exactly on a table with no active row, and the
error is `ErrNoActiveTimeEntry`. -/
theorem getActive_error_iff {entries : List TimeEntry} {e : GoErr} :
    TimeEntryRepository.getActive entries = .error e ↔
      e = .errNoActiveTimeEntry ∧ activeCount entries = 0 := by
  unfold TimeEntryRepository.getActive
  rcases hs : sortByStartDesc (entries.filter TimeEntry.isActive) with _ | ⟨te, rest⟩
  · have hnil : entries.filter TimeEntry.isActive = [] :=
      sortByStartDesc_eq_nil_iff.mp hs
    simp only [activeCount, List.countP_eq_length_filter, hnil]
    constructor
    · intro h
      cases h
      simp
    · rintro ⟨rfl, -⟩
      rfl
  · simp only [activeCount, List.countP_eq_length_filter]
    constructor
    · intro h
      cases h
    · rintro ⟨rfl, hlen⟩
      have : entries.filter TimeEntry.isActive = [] := List.length_eq_zero.mp hlen
      rw [this] at hs
      simp [sortByStartDesc] at hs

/-- A successful `GetActive` returns an active row of the table. -/
theorem getActive_ok_mem {entries : List TimeEntry} {te : TimeEntry} :
    TimeEntryRepository.getActive entries = .ok te →
      te ∈ entries ∧ te.isActive = true := by
  unfold TimeEntryRepository.getActive
  rcases hs : sortByStartDesc (entries.filter TimeEntry.isActive) with _ | ⟨b, rest⟩
  · intro h
    cases h
  · intro h
    cases h
    have hmem : te ∈ sortByStartDesc (entries.filter TimeEntry.isActive) := by
      rw [hs]
      simp
    rw [mem_sortByStartDesc] at hmem
    exact ⟨(List.mem_filter.mp hmem).1, (List.mem_filter.mp hmem).2⟩

/-- Rewriting rows by id with an inactive row never increases the
number of active rows. -/
theorem countP_map_le_of_inactive (p : TimeEntry → Bool)
    (f : TimeEntry → TimeEntry)
    (hf : ∀ x, f x = x ∨ p (f x) = false) :
    ∀ l : List TimeEntry, (l.map f).countP p ≤ l.countP p := by
  intro l
  induction l with
  | nil => simp
  | cons b rest ih =>
    simp only [List.map_cons, List.countP_cons]
    rcases hf b with hb | hb
    · rw [hb]
      omega
    · have h0 : (if p (f b) = true then (1 : Nat) else 0) = 0 := by
        simp [hb]
      rw [h0]
      split <;> omega

/-! ### C1: the single-active-timer invariant -/

/-- An interleaving step: one `StartTimeTracking` or `StopTimeTracking`
call with its impure inputs. -/
inductive TimerOp where
  | start (input : TimeService.StartTimeEntryInput) (newId : String) (now : Int)
      (taskUpdateFails : Bool)
  | stop (now : Int)

/-- The store left behind by one timer operation. -/
def timerStep (st : Store) : TimerOp → Store
  | .start input newId now fails => (TimeService.StartTimeTracking st input newId now fails).2
  | .stop now => (TimeService.StopTimeTracking st now).2

/-- Run a sequence of start/stop operations. -/
def runTimerOps (st : Store) (ops : List TimerOp) : Store :=
  ops.foldl timerStep st

theorem start_activeCount_le (st : Store) (input : TimeService.StartTimeEntryInput)
    (newId : String) (now : Int) (fails : Bool)
    (h : activeCount st.entries ≤ 1) :
    activeCount (TimeService.StartTimeTracking st input newId now fails).2.entries ≤ 1 := by
  unfold TimeService.StartTimeTracking
  split
  · exact h
  · split
    · exact h
    next e hga =>
      have h0 : activeCount st.entries = 0 := (getActive_error_iff.mp hga).2
      split
      · exact h
      next task hgb =>
        have hone : ∀ entry : TimeEntry,
            activeCount (TimeEntryRepository.create st.entries entry) ≤ 1 := by
          intro entry
          unfold TimeEntryRepository.create activeCount at h0 ⊢
          rw [List.countP_append]
          have : List.countP TimeEntry.isActive [entry] ≤ 1 :=
            le_trans (List.countP_le_length _) (by simp)
          omega
        simp only []
        split
        · split
          · exact hone _
          · split
            · exact hone _
            · exact hone _
        · exact hone _

theorem stop_activeCount_le (st : Store) (now : Int)
    (h : activeCount st.entries ≤ 1) :
    activeCount (TimeService.StopTimeTracking st now).2.entries ≤ 1 := by
  unfold TimeService.StopTimeTracking
  split
  · exact h
  next entry hga =>
    simp only []
    split
    · exact h
    next entries' hupd =>
      unfold TimeEntryRepository.update at hupd
      split at hupd
      · cases hupd
        refine le_trans ?_ h
        apply countP_map_le_of_inactive
        intro x
        by_cases hx : x.id = (entry.stop now).id
        · right
          simp [hx, TimeEntry.stop, TimeEntry.isActive]
        · left
          simp [hx]
      · cases hupd

theorem timerStep_activeCount_le (st : Store) (op : TimerOp)
    (h : activeCount st.entries ≤ 1) :
    activeCount (timerStep st op).entries ≤ 1 := by
  cases op with
  | start input newId now fails => exact start_activeCount_le st input newId now fails h
  | stop now => exact stop_activeCount_le st now h

/-- C1: for every store with at most one active time entry and every
sequence of `StartTimeTracking` / `StopTimeTracking` operations, the
number of time entries with a null end timestamp stays at most 1 after
every operation. -/
theorem single_active_timer_invariant (ops : List TimerOp) (st : Store)
    (h : activeCount st.entries ≤ 1) :
    activeCount (runTimerOps st ops).entries ≤ 1 := by
  induction ops generalizing st with
  | nil => exact h
  | cons op rest ih =>
    exact ih (timerStep st op) (timerStep_activeCount_le st op h)

/-- Concrete run for the C1 theorem: start, illegal second start, stop,
start again, from an empty store. -/
def c1Store : Store :=
  { tasks := [NewTask "Fix login" "" "A" 0, NewTask "Other" "" "B" 0]
    projects := []
    entries := [] }

theorem single_active_timer_invariant_witness :
    activeCount (runTimerOps c1Store
      [.start { taskId := "A", description := "w" } "E1" 10 false,
       .start { taskId := "B", description := "w2" } "E2" 15 false,
       .stop 20,
       .start { taskId := "B", description := "w3" } "E3" 30 true]).entries ≤ 1 :=
  single_active_timer_invariant _ c1Store (by decide)

/-! ### C3, C4, C10: the timer guard operations -/

theorem getByID_ok {tasks : List Task} {id : String} {t : Task}
    (h : TaskRepository.getByID tasks id = .ok t) : t ∈ tasks ∧ t.id = id := by
  unfold TaskRepository.getByID at h
  rcases hf : tasks.find? (fun x => x.id = id) with _ | t'
  · rw [hf] at h
    cases h
  · rw [hf] at h
    cases h
    refine ⟨List.mem_of_find?_eq_some hf, ?_⟩
    have h2 := List.find?_some hf
    simpa using h2

/-- C3: `StopTimeTracking` with no active entry fails with an error
wrapping `ErrNoActiveTimeEntry` and leaves the store unchanged;
otherwise it returns the active entry with `end = now` and
`duration = now - start` (so `duration = end - start` exactly), and in
every case the tasks table is untouched. -/
theorem stopTimeTracking_spec (st : Store) (now : Int) :
    (activeCount st.entries = 0 →
      TimeService.StopTimeTracking st now =
        (.error (.wrapped "failed to get active time entry" .errNoActiveTimeEntry), st) ∧
      GoErr.errorsIs (.wrapped "failed to get active time entry" .errNoActiveTimeEntry)
        .errNoActiveTimeEntry = true) ∧
    (∀ e, TimeEntryRepository.getActive st.entries = .ok e →
      (TimeService.StopTimeTracking st now).1 = .ok (e.stop now) ∧
      (e.stop now).endTime = some now ∧
      (e.stop now).duration = now - e.startTime) ∧
    (TimeService.StopTimeTracking st now).2.tasks = st.tasks := by
  refine ⟨?_, ?_, ?_⟩
  · intro h0
    have hga : TimeEntryRepository.getActive st.entries = .error .errNoActiveTimeEntry :=
      getActive_error_iff.mpr ⟨rfl, h0⟩
    refine ⟨?_, rfl⟩
    unfold TimeService.StopTimeTracking
    rw [hga]
  · intro e hga
    have hmem := (getActive_ok_mem hga).1
    have hany : st.entries.any (fun x => x.id = (e.stop now).id) = true := by
      rw [List.any_eq_true]
      refine ⟨e, hmem, ?_⟩
      simp [TimeEntry.stop]
    have hupd : TimeEntryRepository.update st.entries (e.stop now) =
        .ok (st.entries.map fun x => if x.id = (e.stop now).id then e.stop now else x) := by
      unfold TimeEntryRepository.update
      rw [if_pos hany]
    refine ⟨?_, by simp [TimeEntry.stop], by simp [TimeEntry.stop]⟩
    unfold TimeService.StopTimeTracking
    rw [hga]
    simp only []
    rw [hupd]
  · unfold TimeService.StopTimeTracking
    split
    · rfl
    · simp only []
      split
      · rfl
      · rfl

def c3IdleStore : Store := { tasks := [], projects := [], entries := [] }

def c3Active : TimeEntry :=
  { id := "E0", taskId := "A", projectId := "", description := "w",
    startTime := 10, endTime := none, duration := 0, createdAt := 10, updatedAt := 10 }

def c3BusyStore : Store := { tasks := [], projects := [], entries := [c3Active] }

theorem stopTimeTracking_spec_witness :
    TimeService.StopTimeTracking c3IdleStore 5 =
      (.error (.wrapped "failed to get active time entry" .errNoActiveTimeEntry),
       c3IdleStore) ∧
    (TimeService.StopTimeTracking c3BusyStore 50).1 = .ok (c3Active.stop 50) ∧
    (c3Active.stop 50).duration = 50 - c3Active.startTime := by
  refine ⟨((stopTimeTracking_spec c3IdleStore 5).1 (by decide)).1, ?_, ?_⟩
  · exact (((stopTimeTracking_spec c3BusyStore 50).2.1) c3Active (by decide)).1
  · exact (((stopTimeTracking_spec c3BusyStore 50).2.1) c3Active (by decide)).2.2

/-- C4: when the active-entry query returns an entry,
`StartTimeTracking` fails with `ErrActiveTimeEntry` and creates
nothing; otherwise (for a non-empty task id naming an existing task) it
appends a fresh entry with `start = now`, `end = null`, moves the task
to `doing` unless it already is, and a failing task-status update does
not fail the start. -/
theorem startTimeTracking_spec (st : Store) (input : TimeService.StartTimeEntryInput)
    (newId : String) (now : Int) (fails : Bool) (hid : input.taskId ≠ "") :
    (∀ e, TimeEntryRepository.getActive st.entries = .ok e →
      TimeService.StartTimeTracking st input newId now fails =
        (.error .errActiveTimeEntry, st)) ∧
    (∀ task, TimeEntryRepository.getActive st.entries = .error .errNoActiveTimeEntry →
      TaskRepository.getByID st.tasks input.taskId = .ok task →
      (TimeService.StartTimeTracking st input newId now fails).1 =
        .ok (NewTimeEntry input.taskId task.projectId input.description newId now) ∧
      (NewTimeEntry input.taskId task.projectId input.description newId now).startTime = now ∧
      (NewTimeEntry input.taskId task.projectId input.description newId now).endTime = none ∧
      (TimeService.StartTimeTracking st input newId now fails).2.entries =
        st.entries ++ [NewTimeEntry input.taskId task.projectId input.description newId now] ∧
      (task.status = .doing →
        (TimeService.StartTimeTracking st input newId now fails).2.tasks = st.tasks) ∧
      (fails = true →
        (TimeService.StartTimeTracking st input newId now fails).2.tasks = st.tasks) ∧
      (fails = false → task.status ≠ .doing →
        (TimeService.StartTimeTracking st input newId now fails).2.tasks =
          st.tasks.map fun x => if x.id = (task.start now).id then task.start now else x)) := by
  constructor
  · intro e hga
    unfold TimeService.StartTimeTracking
    rw [if_neg hid, hga]
  · intro task hga hgb
    have htask := getByID_ok hgb
    have hany : st.tasks.any (fun x => x.id = (task.start now).id) = true := by
      rw [List.any_eq_true]
      refine ⟨task, htask.1, ?_⟩
      simp [Task.start]
    have hupd : TaskRepository.update st.tasks (task.start now) =
        .ok (st.tasks.map fun x => if x.id = (task.start now).id then task.start now else x) := by
      unfold TaskRepository.update
      rw [if_pos hany]
    unfold TimeService.StartTimeTracking
    rw [if_neg hid, hga, hgb]
    simp only []
    by_cases hstat : task.status = TaskStatus.doing
    · rw [if_neg (by simp [hstat])]
      exact ⟨rfl, rfl, rfl, rfl, fun _ => rfl, fun _ => rfl,
        fun _ hne => absurd hstat hne⟩
    · rw [if_pos hstat]
      cases fails with
      | true =>
        exact ⟨rfl, rfl, rfl, rfl, fun h => absurd h hstat, fun _ => rfl,
          fun hf _ => absurd hf (by simp)⟩
      | false =>
        rw [hupd]
        exact ⟨rfl, rfl, rfl, rfl, fun h => absurd h hstat,
          fun hf => absurd hf (by simp), fun _ _ => rfl⟩

def c4Store : Store := { tasks := [NewTask "T" "" "A" 0], projects := [], entries := [] }

def c4BusyStore : Store := { tasks := [NewTask "T" "" "A" 0], projects := [], entries := [c3Active] }

theorem startTimeTracking_spec_witness :
    TimeService.StartTimeTracking c4BusyStore { taskId := "A", description := "w" } "E1" 5 false =
      (.error .errActiveTimeEntry, c4BusyStore) ∧
    (TimeService.StartTimeTracking c4Store { taskId := "A", description := "w" } "E1" 5 false).1 =
      .ok (NewTimeEntry "A" "" "w" "E1" 5) := by
  constructor
  · exact (startTimeTracking_spec c4BusyStore _ "E1" 5 false (by decide)).1 c3Active (by decide)
  · exact ((startTimeTracking_spec c4Store _ "E1" 5 false (by decide)).2
      (NewTask "T" "" "A" 0) (by decide) (by decide)).1

/-- C10: `GetActiveTimeEntry` maps the repository's
`ErrNoActiveTimeEntry` to a nil entry with nil error, and returns the
active entry without error when one exists. -/
theorem getActiveTimeEntry_spec (st : Store) :
    (activeCount st.entries = 0 → TimeService.GetActiveTimeEntry st = .ok none) ∧
    (∀ e, TimeEntryRepository.getActive st.entries = .ok e →
      TimeService.GetActiveTimeEntry st = .ok (some e)) := by
  constructor
  · intro h0
    have hga : TimeEntryRepository.getActive st.entries = .error .errNoActiveTimeEntry :=
      getActive_error_iff.mpr ⟨rfl, h0⟩
    unfold TimeService.GetActiveTimeEntry
    rw [hga]
    simp
  · intro e hga
    unfold TimeService.GetActiveTimeEntry
    rw [hga]

theorem getActiveTimeEntry_spec_witness :
    TimeService.GetActiveTimeEntry c3IdleStore = .ok none ∧
    TimeService.GetActiveTimeEntry c3BusyStore = .ok (some c3Active) := by
  constructor
  · exact (getActiveTimeEntry_spec c3IdleStore).1 (by decide)
  · exact (getActiveTimeEntry_spec c3BusyStore).2 c3Active (by decide)

/-! ### C5, C6: report aggregation -/

/-- Sum of the per-day group totals of a report. -/
def sumByDayTotals (byDay : List (Int × TimeService.DayTimeReport)) : Int :=
  (byDay.map fun kv => kv.2.totalDuration).sum

theorem foldl_reportStep_total (tasks : List Task) (now : Int) (es : List TimeEntry)
    (r : TimeService.TimeReport) :
    (es.foldl (TimeService.reportStep tasks now) r).totalDuration =
      r.totalDuration + (es.map (fun te => te.getDuration now)).sum := by
  induction es generalizing r with
  | nil => simp
  | cons e rest ih =>
    rw [List.foldl_cons, ih]
    simp only [TimeService.reportStep, List.map_cons, List.sum_cons]
    ring

theorem sumByDayTotals_updateAssoc (m : List (Int × TimeService.DayTimeReport)) (k : Int)
    (f : TimeService.DayTimeReport → TimeService.DayTimeReport)
    (fresh : TimeService.DayTimeReport) (d : Int)
    (hf : ∀ v, (f v).totalDuration = v.totalDuration + d)
    (hfresh : fresh.totalDuration = d) :
    sumByDayTotals (TimeService.updateAssoc m k f fresh) = sumByDayTotals m + d := by
  induction m with
  | nil => simp [TimeService.updateAssoc, sumByDayTotals, hfresh]
  | cons kv rest ih =>
    obtain ⟨k', v⟩ := kv
    simp only [TimeService.updateAssoc]
    split
    · simp only [sumByDayTotals, List.map_cons, List.sum_cons, hf]
      ring
    · simp only [sumByDayTotals, List.map_cons, List.sum_cons] at ih ⊢
      rw [ih]
      ring

theorem reportStep_sumByDay (tasks : List Task) (now : Int)
    (r : TimeService.TimeReport) (e : TimeEntry) :
    sumByDayTotals (TimeService.reportStep tasks now r e).byDay =
      sumByDayTotals r.byDay + e.getDuration now := by
  unfold TimeService.reportStep
  simp only []
  refine sumByDayTotals_updateAssoc _ _ _ _ _ ?_ ?_
  · intro v
    rfl
  · rfl

theorem foldl_reportStep_sumByDay (tasks : List Task) (now : Int) (es : List TimeEntry)
    (r : TimeService.TimeReport) :
    sumByDayTotals (es.foldl (TimeService.reportStep tasks now) r).byDay =
      sumByDayTotals r.byDay + (es.map (fun te => te.getDuration now)).sum := by
  induction es generalizing r with
  | nil => simp
  | cons e rest ih =>
    rw [List.foldl_cons, ih, reportStep_sumByDay]
    simp only [List.map_cons, List.sum_cons]
    ring

/-- C6: for every window, the report's total duration equals the sum of
the per-day group totals of the same report. -/
theorem report_total_additive_byDay (st : Store) (startDate endDate now : Int) :
    (TimeService.GenerateReport st startDate endDate now).totalDuration =
      sumByDayTotals (TimeService.GenerateReport st startDate endDate now).byDay := by
  unfold TimeService.GenerateReport
  simp only []
  rw [foldl_reportStep_total, foldl_reportStep_sumByDay]
  simp [sumByDayTotals]

/-- C5 (amended): the report total sums `GetDuration` (persisted
duration when stopped, `now - start` when running) over exactly the
entries with `start_time >= startDate` and
(`end_time IS NULL OR end_time <= endDate`) — not over the entries
whose start falls in `[startDate, endDate)`. -/
theorem report_total_matches_sql_window (st : Store) (startDate endDate now : Int) :
    (TimeService.GenerateReport st startDate endDate now).totalDuration =
      ((st.entries.filter fun te =>
          decide (startDate ≤ te.startTime) &&
          (match te.endTime with
           | none => true
           | some t => decide (t ≤ endDate))).map
        (fun te => te.getDuration now)).sum := by
  unfold TimeService.GenerateReport
  simp only []
  rw [foldl_reportStep_total]
  unfold TimeService.ListTimeEntries TimeEntryRepository.list
  simp only []
  rw [if_neg (by decide), if_neg (by decide), sum_map_sortByStartDesc, zero_add]
  refine congrArg List.sum (congrArg (List.map fun te : TimeEntry => te.getDuration now) ?_)
  apply List.filter_congr
  intro te _
  simp [entryMatches]

/-- An entry whose start falls inside the window `[0, 10)` but whose end
timestamp lies beyond it: the claimed membership admits it, the code
excludes it. -/
def c5Inside : TimeEntry :=
  { id := "E", taskId := "A", projectId := "", description := "",
    startTime := 5, endTime := some 15, duration := 7, createdAt := 0, updatedAt := 0 }

/-- A running entry whose start lies beyond the window `[0, 10)`: the
claimed membership rejects it, the code includes it. -/
def c5Outside : TimeEntry :=
  { id := "F", taskId := "A", projectId := "", description := "",
    startTime := 50, endTime := none, duration := 0, createdAt := 0, updatedAt := 0 }

def c5Store : Store := { tasks := [], projects := [], entries := [c5Inside, c5Outside] }

/-- C5 counterexample: for the window `[0, 10)` at `now = 60`,
`c5Inside` starts inside the window (so the claim counts its duration
7) yet the generated report drops it, while `c5Outside` starts at 50 —
outside the window — yet the report includes it and its running
contribution `60 - 50`; the report total is 10, not the
start-membership total 7. -/
theorem report_window_by_start_alone_false :
    ((0 : Int) ≤ c5Inside.startTime ∧ c5Inside.startTime < 10) ∧
    c5Inside.getDuration 60 = 7 ∧
    ¬((0 : Int) ≤ c5Outside.startTime ∧ c5Outside.startTime < 10) ∧
    (TimeService.GenerateReport c5Store 0 10 60).entries = [c5Outside] ∧
    (TimeService.GenerateReport c5Store 0 10 60).totalDuration = 10 := by
  decide

/-! ### C2: `completedAt` vs `status == done` under the toggle -/

def c2Task : Task := { NewTask "T" "" "A" 0 with status := .done, completedAt := some 100 }

def c2List : TaskListModel := { tasks := [c2Task], selectedIndex := 0 }

/-- C2 fails on the code: toggling a done task in the task list sets
`Status = todo` but leaves `CompletedAt` set, puts that task both in
the list state and in the emitted "update" action, and the repository
`Update` then persists the violating row verbatim. -/
theorem toggle_done_leaves_completedAt :
    (TaskListModel.update c2List (.key (.ch 't')) 200).2 =
      some (.taskAction "update" (some { c2Task with status := .todo })) ∧
    (TaskListModel.update c2List (.key (.ch 't')) 200).1.tasks =
      [{ c2Task with status := .todo }] ∧
    ({ c2Task with status := .todo } : Task).status ≠ TaskStatus.done ∧
    ({ c2Task with status := .todo } : Task).completedAt = some 100 ∧
    TaskRepository.update [c2Task] { c2Task with status := .todo } =
      .ok [{ c2Task with status := .todo }] := by
  decide

/-! ### C8: parent cycles are never rejected -/

def c8Task : Task := NewTask "T" "" "A" 0

def c8Store : Store := { tasks := [c8Task], projects := [], entries := [] }

/-- C8 fails on the code: `UpdateTask` with `ParentID` equal to the
task's own id succeeds with no `IntegrityViolation`, persisting a task
that is its own parent (a cycle in the parent graph). -/
theorem updateTask_accepts_self_parent :
    (TaskService.UpdateTask c8Store { id := "A", parentId := some "A" }
        (fun _ => none) 99).1 =
      .ok { c8Task with parentId := some "A", updatedAt := 99 } ∧
    (TaskService.UpdateTask c8Store { id := "A", parentId := some "A" }
        (fun _ => none) 99).2.tasks =
      [{ c8Task with parentId := some "A", updatedAt := 99 }] ∧
    ({ c8Task with parentId := some "A", updatedAt := 99 } : Task).parentId =
      some ({ c8Task with parentId := some "A", updatedAt := 99 } : Task).id := by
  decide

/-! ### C9: `archivedAt` vs `status == archived` -/

def c9Project : Project := NewProject "Web" "" "P" 0

def c9Store : Store := { tasks := [], projects := [c9Project], entries := [] }

/-- C9 counterexample: archiving at t=1 and then completing at t=2
through the project service yields `status = completed` with the
archived-at timestamp still set — the "iff" direction from non-null
archived-at to archived status fails. -/
theorem archivedAt_iff_archived_false :
    (ProjectService.CompleteProject
        (ProjectService.ArchiveProject c9Store "P" 1).2 "P" 2).2.projects =
      [{ c9Project with status := .completed, archivedAt := some 1, updatedAt := 2 }] ∧
    ProjectStatus.completed ≠ ProjectStatus.archived ∧
    (some (1 : Int)) ≠ (none : Option Int) := by
  decide

/-- One project status operation (the four `Project` helpers, exactly
what `Service.UpdateProject`'s status switch dispatches to). -/
inductive ProjectOp where
  | archive (now : Int)
  | complete (now : Int)
  | activate (now : Int)
  | putOnHold (now : Int)

def applyProjectOp (p : Project) : ProjectOp → Project
  | .archive now => p.archive now
  | .complete now => p.complete now
  | .activate now => p.activate now
  | .putOnHold now => p.putOnHold now

def runProjectOps (p : Project) (ops : List ProjectOp) : Project :=
  ops.foldl applyProjectOp p

/-- C9 (amended): after any sequence of archive / complete / activate /
put-on-hold operations, a project whose status is archived has a
non-null archived-at; the converse fails (see the counterexample)
because complete and put-on-hold leave a stale archived-at behind. -/
theorem archived_status_implies_archivedAt (ops : List ProjectOp) (p : Project)
    (h : p.status = .archived → p.archivedAt ≠ none) :
    (runProjectOps p ops).status = .archived →
      (runProjectOps p ops).archivedAt ≠ none := by
  induction ops generalizing p with
  | nil => exact h
  | cons op rest ih =>
    refine ih (applyProjectOp p op) ?_
    cases op with
    | archive now =>
      intro _
      simp [applyProjectOp, Project.archive]
    | complete now =>
      intro hc
      exact absurd hc (by simp [applyProjectOp, Project.complete])
    | activate now =>
      intro hc
      exact absurd hc (by simp [applyProjectOp, Project.activate])
    | putOnHold now =>
      intro hc
      exact absurd hc (by simp [applyProjectOp, Project.putOnHold])

theorem archived_status_implies_archivedAt_witness :
    (runProjectOps (NewProject "Web" "" "P" 0)
      [.complete 1, .archive 2, .putOnHold 3, .archive 4]).archivedAt ≠ none :=
  archived_status_implies_archivedAt _ (NewProject "Web" "" "P" 0)
    (by decide) (by decide)

/-! ### C7: empty-title form submission -/

/-- C7: in the task form view, submitting (ctrl+s) with a
whitespace-only title leaves the whole controller state unchanged and
issues only the validation banner message — no save effect, no task;
delivering that banner message sets the error text and changes nothing
else, still in the form view. -/
theorem handleSubmit_emptyTitle (env : Env) (m : TaskFormModel)
    (htitle : trimSpace m.titleInput.value = "") :
    m.handleSubmit env = (m, some (.errorMsg "Title is required")) := by
  unfold TaskFormModel.handleSubmit
  rw [if_pos htitle]

theorem empty_title_submit_spec (env : Env) (m : AppModel)
    (hview : m.currentView = .taskFormView)
    (htitle : trimSpace m.taskForm.titleInput.value = "") :
    AppModel.update env m (.key .ctrlS) =
      (m, [Cmd.emit (.errorMsg "Title is required")]) ∧
    AppModel.update env m (.errorMsg "Title is required") =
      ({ m with error := "Title is required" }, []) := by
  obtain ⟨cv, wd, hgt, tl, td, tf, pl, pf, db, sT, sP, aTE, er, su⟩ := m
  obtain rfl : cv = .taskFormView := hview
  constructor
  · have hform : TaskFormModel.update tf env (.key .ctrlS) =
        (tf, some (.errorMsg "Title is required")) :=
      handleSubmit_emptyTitle env tf htitle
    simp only [AppModel.update, AppModel.delegate, hform, cmdsOf]
    rw [if_neg (by decide), if_neg (by decide), if_neg (by decide), if_neg (by decide)]
  · rfl

def c7Env : Env :=
  { parseDate := fun _ => none, formatDate := fun _ => "", newId := "N", now := 0 }

def c7App : AppModel := { NewAppModel with currentView := .taskFormView }

theorem empty_title_submit_spec_witness :
    AppModel.update c7Env c7App (.key .ctrlS) =
      (c7App, [Cmd.emit (.errorMsg "Title is required")]) ∧
    (AppModel.update c7Env c7App (.errorMsg "Title is required")).1.error =
      "Title is required" := by
  have h := empty_title_submit_spec c7Env c7App rfl (by decide)
  refine ⟨h.1, ?_⟩
  rw [h.2]

end PM
